import Mathlib

/-!
Shallow embedding of `src/contamination/check_contamination.py`, a train/test
contamination checker: it tokenizes question/answer fields, scores Jaccard
similarity between token sets, and matches each candidate line against a
reference collection with a fixed exact-match / jaccard-question /
jaccard-answer precedence, fanned out over a process pool.

Modelling conventions:
* Python strings are `List Char` (`Str`); `str.strip`, `str.lower`,
  `str.split()` and the regex `re.sub(r"[^\w\s]", "", ·)` are modelled
  character-wise with `Char.isWhitespace`, `Char.toLower` and an
  ASCII word-character predicate.
* Python floats are `ℚ` (all scores here are ratios of small naturals).
* A parsed JSON object is an association list `Entry`.  `json.loads` is an
  abstract parameter, at two granularities: `jsonLoads : Str → Option Entry`
  (`none` exactly on the lines that raise `json.JSONDecodeError`), adequate
  for lines that decode to records or fail to decode, and the finer
  `jsonDecode : Str → Option JsonVal`, which additionally distinguishes
  lines that decode to a non-record value (a JSON array, number, string…)
  on which the source's `input_entry.get` raises an uncaught
  `AttributeError`; `check_entry_exc` models that path as `Except.error`
  and `check_entry_exc_agrees` relates the two models on the
  non-aborting lines.
* `print` diagnostics are modelled as an explicit second output component
  (a list of emitted diagnostic strings).
-/

namespace Contamination

/-- A Python string, modelled as its list of characters. -/
abbrev Str := List Char

/-- Embed a Lean string literal as a `Str`. -/
def str (s : String) : Str := s.data

/-- A parsed JSON object with string values, as an association list
(keys are unique in objects produced by `json.loads`). -/
abbrev Entry := List (Str × Str)

/-- Value at key `k` (the model of `entry.get(k, "")` and of `entry[k]`),
defaulting to the empty string.  The source indexes reference entries directly (`entry[k]`,
raising `KeyError` when absent), but reference entries reaching
`check_entry` always contain both configured keys (see `loadReference`),
so on all reachable inputs this total model agrees with the source. -/
def Entry.getStr (e : Entry) (k : Str) : Str :=
  ((e.find? fun p => p.1 = k).map fun p => p.2).getD []

/-- Membership test `k in entry` for a parsed JSON object. -/
def Entry.hasKey (e : Entry) (k : Str) : Bool :=
  e.any fun p => p.1 = k

/-- Python `str.strip()`: remove leading and trailing whitespace. -/
def pyStrip (s : Str) : Str :=
  ((s.dropWhile Char.isWhitespace).reverse.dropWhile Char.isWhitespace).reverse

/-- A word character, the `\w` class of the source's regex
(letter, digit or underscore; ASCII model). -/
def isWordChar (c : Char) : Bool :=
  c.isAlphanum || c = '_'

/-- Helper for `pySplit`: accumulates the current (reversed) token. -/
def splitAux : List Char → List Char → List (List Char)
  | [], acc => if acc.isEmpty then [] else [acc.reverse]
  | c :: cs, acc =>
    if c.isWhitespace then
      (if acc.isEmpty then [] else [acc.reverse]) ++ splitAux cs []
    else
      splitAux cs (c :: acc)

/-- Python `str.split()` with no argument: split on runs of whitespace,
dropping empty pieces. -/
def pySplit (s : Str) : List Str :=
  splitAux s []

/-- Model of `tokenize(text)`: lower-case, delete every character that is neither a
word character nor whitespace (`re.sub(r"[^\w\s]", "", ·)`), split on
whitespace and collect the pieces into a set. -/
def tokenize (text : Str) : Finset Str :=
  (pySplit ((text.map Char.toLower).filter
    fun c => isWordChar c || c.isWhitespace)).toFinset

/-- Model of `jaccard_similarity(set1, set2)`: 1.0 when both sets are empty,
otherwise `|set1 ∩ set2| / |set1 ∪ set2|`, with a defensive 0.0 when the
union is empty. -/
def jaccard_similarity (set1 set2 : Finset Str) : ℚ :=
  if set1 = ∅ ∧ set2 = ∅ then 1
  else
    let intersection : ℕ := (set1 ∩ set2).card
    let union : ℕ := (set1 ∪ set2).card
    if union = 0 then 0 else (intersection : ℚ) / (union : ℚ)

/-- One row of the `contaminated` list:
`(ref_entry, input_entry, match kind, score)`. -/
abbrev MatchRec := Entry × Entry × Str × ℚ

/-- Model of `check_entry(reference_data, line_file, q_key, a_key, threshold)`
on the lines whose processing terminates normally: on
`json.JSONDecodeError` emit the `Invalid JSON` diagnostic and return no
records; on a line that parses to a record, walk the reference collection
in order, appending at most one match record per reference entry, trying
exact match, then question Jaccard, then answer Jaccard.  First output
component is the returned `contaminated` list, second the diagnostics
printed.  A line that decodes to a non-record value instead raises an
uncaught `AttributeError` in the source; that path is outside this
two-outcome model and is captured by `check_entry_exc`, which agrees with
this function on all other lines (`check_entry_exc_agrees`). -/
def check_entry (jsonLoads : Str → Option Entry) (reference_data : List Entry)
    (line_file : Str × Str) (q_key a_key : Str) (threshold : ℚ) :
    List MatchRec × List Str :=
  match jsonLoads (pyStrip line_file.1) with
  | none =>
    ([], [str "Invalid JSON in " ++ line_file.2 ++ str ": " ++ line_file.1])
  | some input_entry =>
    let input_q := pyStrip (input_entry.getStr (str "question"))
    let input_a := pyStrip (input_entry.getStr (str "answer"))
    let input_q_tokens := tokenize input_q
    let input_a_tokens := tokenize input_a
    (reference_data.foldl
      (fun contaminated ref_entry =>
        let ref_q := pyStrip (ref_entry.getStr q_key)
        let ref_a := pyStrip (ref_entry.getStr a_key)
        let ref_q_tokens := tokenize ref_q
        let ref_a_tokens := tokenize ref_a
        if input_q = ref_q ∨ input_a = ref_a then
          contaminated ++ [(ref_entry, input_entry, str "exact_match", 1)]
        else
          let q_sim := jaccard_similarity ref_q_tokens input_q_tokens
          if threshold ≤ q_sim then
            contaminated ++ [(ref_entry, input_entry, str "jaccard_question", q_sim)]
          else
            let a_sim := jaccard_similarity ref_a_tokens input_a_tokens
            if threshold ≤ a_sim then
              contaminated ++ [(ref_entry, input_entry, str "jaccard_answer", a_sim)]
            else
              contaminated)
      [], [])

/-- The per-reference-entry decision of `check_entry`'s loop body: the at
most one match record that one iteration appends for `ref_entry`. -/
def checkRefRule (input_entry : Entry) (q_key a_key : Str) (threshold : ℚ)
    (ref_entry : Entry) : Option MatchRec :=
  let input_q := pyStrip (input_entry.getStr (str "question"))
  let input_a := pyStrip (input_entry.getStr (str "answer"))
  let ref_q := pyStrip (ref_entry.getStr q_key)
  let ref_a := pyStrip (ref_entry.getStr a_key)
  if input_q = ref_q ∨ input_a = ref_a then
    some (ref_entry, input_entry, str "exact_match", 1)
  else
    let q_sim := jaccard_similarity (tokenize ref_q) (tokenize input_q)
    if threshold ≤ q_sim then
      some (ref_entry, input_entry, str "jaccard_question", q_sim)
    else
      let a_sim := jaccard_similarity (tokenize ref_a) (tokenize input_a)
      if threshold ≤ a_sim then
        some (ref_entry, input_entry, str "jaccard_answer", a_sim)
      else
        none

/-- The matching rule as the specification words it (claim C1): candidate
question/answer compared with the reference entry's, exact match first,
then Jaccard similarity of the question token sets against the threshold,
then of the answer token sets, short-circuiting at the first rule that
fires.  Stated with the candidate's token set as the first argument, as
the spec reads; the source passes the reference's set first. -/
def specRule (input_entry : Entry) (q_key a_key : Str) (threshold : ℚ)
    (ref_entry : Entry) : Option MatchRec :=
  let input_q := pyStrip (input_entry.getStr (str "question"))
  let input_a := pyStrip (input_entry.getStr (str "answer"))
  let ref_q := pyStrip (ref_entry.getStr q_key)
  let ref_a := pyStrip (ref_entry.getStr a_key)
  if input_q = ref_q ∨ input_a = ref_a then
    some (ref_entry, input_entry, str "exact_match", 1)
  else if threshold ≤ jaccard_similarity (tokenize input_q) (tokenize ref_q) then
    some (ref_entry, input_entry, str "jaccard_question",
      jaccard_similarity (tokenize input_q) (tokenize ref_q))
  else if threshold ≤ jaccard_similarity (tokenize input_a) (tokenize ref_a) then
    some (ref_entry, input_entry, str "jaccard_answer",
      jaccard_similarity (tokenize input_a) (tokenize ref_a))
  else
    none

/-- Model of `get_all_lines(input_files)`: all non-blank lines of all input files,
in file order then line order, each paired with its source file name. -/
def get_all_lines (input_files : List (Str × List Str)) : List (Str × Str) :=
  input_files.flatMap fun f =>
    (f.2.filter fun line => ¬ (pyStrip line).isEmpty).map fun line => (line, f.1)

/-- The aggregation done by `main`'s pool loop: every task is
`check_entry` on one candidate line, and the per-task results are
concatenated in the order the `tasks` list presents them (for
`imap_unordered` this is the arrival order, a permutation of submission
order).  First component models `all_contaminated`, second the
diagnostics printed by workers. -/
def run_all (jsonLoads : Str → Option Entry) (reference_data : List Entry)
    (tasks : List (Str × Str)) (q_key a_key : Str) (threshold : ℚ) :
    List MatchRec × List Str :=
  (tasks.flatMap fun t =>
      (check_entry jsonLoads reference_data t q_key a_key threshold).1,
   tasks.flatMap fun t =>
      (check_entry jsonLoads reference_data t q_key a_key threshold).2)

/-- The `jsonl` reference-loading loop of `main`: per line, parse; on
`json.JSONDecodeError` print the `Invalid JSON in reference JSONL`
diagnostic; otherwise append the entry to `reference_data` exactly when it
contains both configured keys (no diagnostic when a key is missing).
First component is `reference_data`, second the diagnostics printed. -/
def loadReference (jsonLoads : Str → Option Entry) (lines : List Str)
    (q_key a_key : Str) : List Entry × List Str :=
  lines.foldl
    (fun acc line =>
      match jsonLoads (pyStrip line) with
      | none => (acc.1, acc.2 ++ [str "Invalid JSON in reference JSONL: " ++ line])
      | some entry =>
        if entry.hasKey q_key ∧ entry.hasKey a_key then
          (acc.1 ++ [entry], acc.2)
        else
          acc)
    ([], [])

/-- The result of a successful `json.loads`, at the granularity
`check_entry` observes: either a record (an object whose relevant values
are strings, on which `.get` works), or any other JSON value (array,
number, string, …), on which `input_entry.get` raises `AttributeError`. -/
inductive JsonVal where
  | record : Entry → JsonVal
  | nonRecord : JsonVal
deriving DecidableEq

/-- Projection of a decoded value to a record, `none` on non-records. -/
def jsonRecord? : JsonVal → Option Entry
  | JsonVal.record e => some e
  | JsonVal.nonRecord => none

/-- Equality on `Except` values is decidable componentwise. -/
instance {ε α : Type} [DecidableEq ε] [DecidableEq α] : DecidableEq (Except ε α) :=
  fun a b =>
    match a, b with
    | Except.error e, Except.error f =>
      if h : e = f then Decidable.isTrue (h ▸ rfl)
      else Decidable.isFalse fun hc => h (by cases hc; rfl)
    | Except.error _, Except.ok _ => Decidable.isFalse fun hc => Except.noConfusion hc
    | Except.ok _, Except.error _ => Decidable.isFalse fun hc => Except.noConfusion hc
    | Except.ok x, Except.ok y =>
      if h : x = y then Decidable.isTrue (h ▸ rfl)
      else Decidable.isFalse fun hc => h (by cases hc; rfl)

/-- Staged instances so that instance search on the nested record and
result types stays shallow. -/
instance : DecidableEq MatchRec := inferInstance

instance : DecidableEq (List MatchRec) := inferInstance

instance : DecidableEq (List MatchRec × List Str) := inferInstance

instance : DecidableEq (Except Str (List MatchRec × List Str)) := inferInstance

/-- Exception-aware model of `check_entry`: like `check_entry`, but with
the finer parser abstraction that distinguishes lines decoding to a
non-record value.  There `input_entry.get("question", "")` raises
`AttributeError`, which the handler `except json.JSONDecodeError` does not
catch, so the exception escapes `check_entry`; this is `Except.error`.
The other two branches are the source's loop exactly as in
`check_entry`. -/
def check_entry_exc (jsonDecode : Str → Option JsonVal)
    (reference_data : List Entry) (line_file : Str × Str) (q_key a_key : Str)
    (threshold : ℚ) : Except Str (List MatchRec × List Str) :=
  match jsonDecode (pyStrip line_file.1) with
  | none =>
    Except.ok
      ([], [str "Invalid JSON in " ++ line_file.2 ++ str ": " ++ line_file.1])
  | some JsonVal.nonRecord => Except.error (str "AttributeError")
  | some (JsonVal.record input_entry) =>
    let input_q := pyStrip (input_entry.getStr (str "question"))
    let input_a := pyStrip (input_entry.getStr (str "answer"))
    let input_q_tokens := tokenize input_q
    let input_a_tokens := tokenize input_a
    Except.ok
      (reference_data.foldl
        (fun contaminated ref_entry =>
          let ref_q := pyStrip (ref_entry.getStr q_key)
          let ref_a := pyStrip (ref_entry.getStr a_key)
          let ref_q_tokens := tokenize ref_q
          let ref_a_tokens := tokenize ref_a
          if input_q = ref_q ∨ input_a = ref_a then
            contaminated ++ [(ref_entry, input_entry, str "exact_match", 1)]
          else
            let q_sim := jaccard_similarity ref_q_tokens input_q_tokens
            if threshold ≤ q_sim then
              contaminated ++ [(ref_entry, input_entry, str "jaccard_question", q_sim)]
            else
              let a_sim := jaccard_similarity ref_a_tokens input_a_tokens
              if threshold ≤ a_sim then
                contaminated ++ [(ref_entry, input_entry, str "jaccard_answer", a_sim)]
              else
                contaminated)
        [], [])

/-- Exception-aware model of `main`'s pool-consumption loop: per-task
results are consumed and concatenated; a worker exception is re-raised in
the parent when that task's result is consumed, which aborts the loop —
the output file is never written — so the whole run is `Except.error`. -/
def run_all_exc (jsonDecode : Str → Option JsonVal) (reference_data : List Entry)
    (tasks : List (Str × Str)) (q_key a_key : Str) (threshold : ℚ) :
    Except Str (List MatchRec × List Str) :=
  match tasks with
  | [] => Except.ok ([], [])
  | t :: ts =>
    match check_entry_exc jsonDecode reference_data t q_key a_key threshold with
    | Except.error e => Except.error e
    | Except.ok r =>
      match run_all_exc jsonDecode reference_data ts q_key a_key threshold with
      | Except.error e => Except.error e
      | Except.ok rs => Except.ok (r.1 ++ rs.1, r.2 ++ rs.2)

/-! ### Concrete fixtures used by the witness and counterexample theorems -/

/-- A sample reference entry (the spec's end-to-end example). -/
def wRef : Entry := [(str "question", str "What is 2+2?"), (str "answer", str "4")]

/-- A sample candidate entry whose question exactly matches `wRef`. -/
def wCand : Entry := [(str "question", str "What is 2+2?"), (str "answer", str "five")]

/-- A sample JSON parser: line `c1` parses to `wCand`, line `c2` to an
unrelated entry, anything else is malformed. -/
def wLoads : Str → Option Entry := fun s =>
  if s = str "c1" then some wCand
  else if s = str "c2" then
    some [(str "question", str "totally unrelated"), (str "answer", str "42")]
  else none

/-- The match record `check_entry` produces for `wCand` against `wRef`. -/
def wRec : MatchRec := (wRef, wCand, str "exact_match", 1)

/-- A parser fixture for the C8 counterexample: the single line `L1`
parses to a record that has the question key but no answer key. -/
def cLoads : Str → Option Entry := fun s =>
  if s = str "L1" then some [(str "question", str "q only")] else none

/-- A reference entry whose answer is all whitespace, for the C9 witness. -/
def wRefBlank : Entry :=
  [(str "question", str "completely different"), (str "answer", str "   ")]

/-- A candidate with no answer key at all, for the C9 witness. -/
def wCandNoAnswer : Entry := [(str "question", str "zzz")]

/-- A parser fixture for the C9 witness. -/
def wLoadsBlank : Str → Option Entry := fun s =>
  if s = str "c9" then some wCandNoAnswer else none

/-- A candidate like `wCand` but with extra unrelated fields, for the C10
witness. -/
def wCandExtra : Entry :=
  [(str "question", str "What is 2+2?"), (str "answer", str "five"),
   (str "source", str "somewhere"), (str "id", str "17")]

/-- A parser fixture for the C10 witness. -/
def wLoadsExtra : Str → Option Entry := fun s =>
  if s = str "c10" then some wCandExtra else none

/-- A fine-grained parser fixture: line `c1` decodes to the record
`wCand`, line `c2` to an unrelated record, line `arr` decodes successfully
to a non-record JSON value (such as the array `[1, 2]`), and anything
else raises `json.JSONDecodeError`. -/
def wDecode : Str → Option JsonVal := fun s =>
  if s = str "c1" then some (JsonVal.record wCand)
  else if s = str "c2" then
    some (JsonVal.record
      [(str "question", str "totally unrelated"), (str "answer", str "42")])
  else if s = str "arr" then some JsonVal.nonRecord
  else none

/-! ### Helper lemmas -/

/-- The Jaccard score is symmetric in its two arguments. -/
lemma jaccard_comm (A B : Finset Str) :
    jaccard_similarity A B = jaccard_similarity B A := by
  unfold jaccard_similarity
  rw [Finset.inter_comm, Finset.union_comm]
  by_cases h : A = ∅ ∧ B = ∅
  · rw [if_pos h, if_pos ⟨h.2, h.1⟩]
  · rw [if_neg h, if_neg (fun hc : B = ∅ ∧ A = ∅ => h ⟨hc.2, hc.1⟩)]

/-- The Jaccard score is nonnegative. -/
lemma jaccard_nonneg (A B : Finset Str) : 0 ≤ jaccard_similarity A B := by
  unfold jaccard_similarity
  split
  · exact zero_le_one
  · dsimp only
    split
    · exact le_refl 0
    · positivity

/-- The Jaccard score is at most one. -/
lemma jaccard_le_one (A B : Finset Str) : jaccard_similarity A B ≤ 1 := by
  unfold jaccard_similarity
  split
  · exact le_refl 1
  · dsimp only
    split
    · exact zero_le_one
    · rename_i hu
      rw [div_le_one (by positivity)]
      exact_mod_cast Finset.card_le_card Finset.inter_subset_union

/-- A left fold whose step appends the optional output of `g` is the
filter-map of `g` after the initial accumulator. -/
lemma foldl_append_filterMap {α β : Type} (f : List β → α → List β) (g : α → Option β)
    (hf : ∀ acc r, f acc r = acc ++ (g r).toList) :
    ∀ (l : List α) (init : List β), l.foldl f init = init ++ l.filterMap g := by
  intro l
  induction l with
  | nil => intro init; simp
  | cons r l ih =>
    intro init
    rw [List.foldl_cons, ih, hf, List.filterMap_cons]
    cases g r <;> simp

/-- One iteration of `check_entry`'s loop appends exactly the optional
record `checkRefRule` decides for that reference entry. -/
lemma check_entry_step (input_entry ref_entry : Entry) (q_key a_key : Str)
    (threshold : ℚ) (contaminated : List MatchRec) :
    (let input_q := pyStrip (input_entry.getStr (str "question"))
     let input_a := pyStrip (input_entry.getStr (str "answer"))
     let ref_q := pyStrip (ref_entry.getStr q_key)
     let ref_a := pyStrip (ref_entry.getStr a_key)
     if input_q = ref_q ∨ input_a = ref_a then
       contaminated ++ [(ref_entry, input_entry, str "exact_match", 1)]
     else
       let q_sim := jaccard_similarity (tokenize ref_q) (tokenize input_q)
       if threshold ≤ q_sim then
         contaminated ++ [(ref_entry, input_entry, str "jaccard_question", q_sim)]
       else
         let a_sim := jaccard_similarity (tokenize ref_a) (tokenize input_a)
         if threshold ≤ a_sim then
           contaminated ++ [(ref_entry, input_entry, str "jaccard_answer", a_sim)]
         else
           contaminated) =
    contaminated ++ (checkRefRule input_entry q_key a_key threshold ref_entry).toList := by
  simp only [checkRefRule]
  split_ifs <;> simp

/-- On a line that parses to `input_entry`, `check_entry` returns the
filter-map of the per-reference rule over the reference collection, and
prints nothing. -/
lemma check_entry_parsed (jsonLoads : Str → Option Entry) (reference_data : List Entry)
    (line file q_key a_key : Str) (threshold : ℚ) (input_entry : Entry)
    (h : jsonLoads (pyStrip line) = some input_entry) :
    check_entry jsonLoads reference_data (line, file) q_key a_key threshold =
      (reference_data.filterMap (checkRefRule input_entry q_key a_key threshold), []) := by
  unfold check_entry
  rw [h]
  dsimp only
  rw [foldl_append_filterMap _ (checkRefRule input_entry q_key a_key threshold)
    (fun acc r => check_entry_step input_entry r q_key a_key threshold acc)]
  simp

/-- On a line that fails to parse, `check_entry` returns no records and
prints the `Invalid JSON` diagnostic. -/
lemma check_entry_unparsed (jsonLoads : Str → Option Entry) (reference_data : List Entry)
    (line file q_key a_key : Str) (threshold : ℚ)
    (h : jsonLoads (pyStrip line) = none) :
    check_entry jsonLoads reference_data (line, file) q_key a_key threshold =
      ([], [str "Invalid JSON in " ++ file ++ str ": " ++ line]) := by
  unfold check_entry
  rw [h]

/-- The per-reference rule of the source agrees with the rule as the
specification words it (the only difference is the argument order of the
symmetric Jaccard score). -/
lemma checkRefRule_eq_specRule (input_entry ref_entry : Entry) (q_key a_key : Str)
    (threshold : ℚ) :
    checkRefRule input_entry q_key a_key threshold ref_entry =
      specRule input_entry q_key a_key threshold ref_entry := by
  unfold checkRefRule specRule
  dsimp only
  rw [jaccard_comm (tokenize (pyStrip (ref_entry.getStr q_key))),
    jaccard_comm (tokenize (pyStrip (ref_entry.getStr a_key)))]

/-- Shape of any record the per-reference rule can produce: the reference
and candidate entries are echoed back, and the kind/score pair is either
`exact_match` with score 1, or one of the two Jaccard kinds with a score
between the threshold and 1. -/
lemma checkRefRule_cases (input_entry ref_entry : Entry) (q_key a_key : Str)
    (threshold : ℚ) (rec : MatchRec)
    (h : checkRefRule input_entry q_key a_key threshold ref_entry = some rec) :
    rec.1 = ref_entry ∧ rec.2.1 = input_entry ∧
      (rec.2.2.1 = str "exact_match" ∧ rec.2.2.2 = 1 ∨
       (rec.2.2.1 = str "jaccard_question" ∨ rec.2.2.1 = str "jaccard_answer") ∧
         threshold ≤ rec.2.2.2 ∧ rec.2.2.2 ≤ 1) := by
  unfold checkRefRule at h
  dsimp only at h
  split_ifs at h with h1 h2 h3
  · cases h
    exact ⟨rfl, rfl, Or.inl ⟨rfl, rfl⟩⟩
  · cases h
    exact ⟨rfl, rfl, Or.inr ⟨Or.inl rfl, h2, jaccard_le_one _ _⟩⟩
  · cases h
    exact ⟨rfl, rfl, Or.inr ⟨Or.inr rfl, h3, jaccard_le_one _ _⟩⟩

/-- Soundness of the `str.split()` model: under the invariant that the
accumulator holds no whitespace, every produced piece is nonempty and
consists of non-whitespace characters drawn from the accumulator or the
remaining input. -/
lemma splitAux_sound : ∀ (s acc : List Char),
    (∀ c ∈ acc, c.isWhitespace = false) →
    ∀ t ∈ splitAux s acc,
      t ≠ [] ∧ ∀ c ∈ t, c.isWhitespace = false ∧ (c ∈ acc ∨ c ∈ s) := by
  intro s
  induction s with
  | nil =>
    intro acc hacc t ht
    unfold splitAux at ht
    split at ht
    · cases ht
    · rename_i hne
      rw [List.mem_singleton] at ht
      subst ht
      refine ⟨?_, fun c hc => ?_⟩
      · simp only [ne_eq, List.reverse_eq_nil_iff]
        exact fun h => hne (by simp [h])
      · rw [List.mem_reverse] at hc
        exact ⟨hacc c hc, Or.inl hc⟩
  | cons a s ih =>
    intro acc hacc t ht
    unfold splitAux at ht
    split at ht
    · rename_i hws
      rw [List.mem_append] at ht
      rcases ht with ht | ht
      · split at ht
        · cases ht
        · rename_i hne
          rw [List.mem_singleton] at ht
          subst ht
          refine ⟨?_, fun c hc => ?_⟩
          · simp only [ne_eq, List.reverse_eq_nil_iff]
            exact fun h => hne (by simp [h])
          · rw [List.mem_reverse] at hc
            exact ⟨hacc c hc, Or.inl hc⟩
      · obtain ⟨hne, hmem⟩ := ih [] (by intro c hc; cases hc) t ht
        refine ⟨hne, fun c hc => ?_⟩
        obtain ⟨hw, hor⟩ := hmem c hc
        rcases hor with h | h
        · cases h
        · exact ⟨hw, Or.inr (List.mem_cons_of_mem a h)⟩
    · rename_i hws
      have hacc2 : ∀ c ∈ a :: acc, c.isWhitespace = false := by
        intro c hc
        rcases List.mem_cons.mp hc with h | h
        · subst h
          exact Bool.not_eq_true _ ▸ (by simpa using hws)
        · exact hacc c h
      obtain ⟨hne, hmem⟩ := ih (a :: acc) hacc2 t ht
      refine ⟨hne, fun c hc => ?_⟩
      obtain ⟨hw, hor⟩ := hmem c hc
      rcases hor with h | h
      · rcases List.mem_cons.mp h with h | h
        · subst h
          exact ⟨hw, Or.inr (List.mem_cons_self _ _)⟩
        · exact ⟨hw, Or.inl h⟩
      · exact ⟨hw, Or.inr (List.mem_cons_of_mem a h)⟩

/-- On every line that does not decode to a non-record value — i.e. on the
whole domain where the source terminates normally — the exception-aware
model agrees with `check_entry` run over the coarse parser obtained by
projecting decoded values to records. -/
lemma check_entry_exc_agrees (jsonDecode : Str → Option JsonVal)
    (reference_data : List Entry) (line_file : Str × Str) (q_key a_key : Str)
    (threshold : ℚ)
    (h : jsonDecode (pyStrip line_file.1) ≠ some JsonVal.nonRecord) :
    check_entry_exc jsonDecode reference_data line_file q_key a_key threshold =
      Except.ok (check_entry (fun s => (jsonDecode s).bind jsonRecord?)
        reference_data line_file q_key a_key threshold) := by
  unfold check_entry_exc check_entry
  cases hj : jsonDecode (pyStrip line_file.1) with
  | none => simp [hj]
  | some v =>
    cases v with
    | record e => simp [hj, jsonRecord?]
    | nonRecord => exact absurd hj h

/-- Unfolding equation of `run_all_exc` on a nonempty task list. -/
lemma run_all_exc_cons (jsonDecode : Str → Option JsonVal)
    (reference_data : List Entry) (t : Str × Str) (ts : List (Str × Str))
    (q_key a_key : Str) (threshold : ℚ) :
    run_all_exc jsonDecode reference_data (t :: ts) q_key a_key threshold =
      match check_entry_exc jsonDecode reference_data t q_key a_key threshold with
      | Except.error e => Except.error e
      | Except.ok r =>
        match run_all_exc jsonDecode reference_data ts q_key a_key threshold with
        | Except.error e => Except.error e
        | Except.ok rs => Except.ok (r.1 ++ rs.1, r.2 ++ rs.2) := rfl

/-- The exception-aware run splits over list append: it is the combined
result when both halves succeed, and the first error otherwise. -/
lemma run_all_exc_append (jsonDecode : Str → Option JsonVal)
    (reference_data : List Entry) (q_key a_key : Str) (threshold : ℚ) :
    ∀ xs ys : List (Str × Str),
      run_all_exc jsonDecode reference_data (xs ++ ys) q_key a_key threshold =
        match run_all_exc jsonDecode reference_data xs q_key a_key threshold with
        | Except.error e => Except.error e
        | Except.ok a =>
          match run_all_exc jsonDecode reference_data ys q_key a_key threshold with
          | Except.error e => Except.error e
          | Except.ok b => Except.ok (a.1 ++ b.1, a.2 ++ b.2) := by
  intro xs
  induction xs with
  | nil =>
    intro ys
    cases hys : run_all_exc jsonDecode reference_data ys q_key a_key threshold with
    | error e => simp [run_all_exc, hys]
    | ok b => simp [run_all_exc, hys]
  | cons t ts ih =>
    intro ys
    rw [List.cons_append, run_all_exc_cons, run_all_exc_cons, ih ys]
    cases check_entry_exc jsonDecode reference_data t q_key a_key threshold with
    | error e => rfl
    | ok r =>
      dsimp only
      cases run_all_exc jsonDecode reference_data ts q_key a_key threshold with
      | error e => rfl
      | ok a =>
        dsimp only
        cases run_all_exc jsonDecode reference_data ys q_key a_key threshold with
        | error e => rfl
        | ok b => simp

/-! ### Claim theorems -/

/-- C1: for every candidate line that parses as a record, `check_entry`
equals the filter-map, over the reference collection in its order, of the
per-reference precedence rule exactly as the spec words it (exact match
first with score 1.0, else question Jaccard at or above the threshold,
else answer Jaccard, else nothing), so records appear in
reference-collection order with at most one record per reference entry
and a short-circuit at the first rule that fires. -/
theorem check_entry_precedence (jsonLoads : Str → Option Entry)
    (reference_data : List Entry) (line file q_key a_key : Str) (threshold : ℚ)
    (input_entry : Entry) (h : jsonLoads (pyStrip line) = some input_entry) :
    (check_entry jsonLoads reference_data (line, file) q_key a_key threshold).1 =
      reference_data.filterMap (specRule input_entry q_key a_key threshold) := by
  rw [check_entry_parsed jsonLoads reference_data line file q_key a_key threshold
    input_entry h]
  exact List.filterMap_congr fun r _ =>
    checkRefRule_eq_specRule input_entry r q_key a_key threshold

/-- Witness for C1 at the spec's end-to-end example. -/
theorem check_entry_precedence_witness :
    (check_entry wLoads [wRef] (str "c1", str "f") (str "question") (str "answer")
        (8/10)).1 =
      [wRef].filterMap (specRule wCand (str "question") (str "answer") (8/10)) :=
  check_entry_precedence wLoads [wRef] (str "c1") (str "f") (str "question")
    (str "answer") (8/10) wCand (by with_unfolding_all decide)

/-- C2: every match record `check_entry` emits has score 1 when its kind
is `exact_match`, and otherwise has one of the two Jaccard kinds and a
score between the threshold and 1. -/
theorem match_record_scores (jsonLoads : Str → Option Entry)
    (reference_data : List Entry) (line file q_key a_key : Str) (threshold : ℚ)
    (rec : MatchRec)
    (h : rec ∈ (check_entry jsonLoads reference_data (line, file) q_key a_key
      threshold).1) :
    (rec.2.2.1 = str "exact_match" → rec.2.2.2 = 1) ∧
    (rec.2.2.1 ≠ str "exact_match" →
      (rec.2.2.1 = str "jaccard_question" ∨ rec.2.2.1 = str "jaccard_answer") ∧
        threshold ≤ rec.2.2.2 ∧ rec.2.2.2 ≤ 1) := by
  cases hp : jsonLoads (pyStrip line) with
  | none =>
    rw [check_entry_unparsed jsonLoads reference_data line file q_key a_key
      threshold hp] at h
    cases h
  | some input_entry =>
    rw [check_entry_parsed jsonLoads reference_data line file q_key a_key
      threshold input_entry hp] at h
    obtain ⟨r, _, hr⟩ := List.mem_filterMap.mp h
    obtain ⟨_, _, hcase⟩ := checkRefRule_cases input_entry r q_key a_key threshold rec hr
    rcases hcase with ⟨hk, hs⟩ | ⟨hk, hs1, hs2⟩
    · exact ⟨fun _ => hs, fun hne => absurd hk hne⟩
    · refine ⟨fun hx => ?_, fun _ => ⟨hk, hs1, hs2⟩⟩
      exfalso
      rcases hk with hk | hk <;> rw [hx] at hk <;> exact absurd hk (by decide)

/-- Witness for C2 at a concrete record of a concrete run. -/
theorem match_record_scores_witness :
    (wRec.2.2.1 = str "exact_match" → wRec.2.2.2 = 1) ∧
    (wRec.2.2.1 ≠ str "exact_match" →
      (wRec.2.2.1 = str "jaccard_question" ∨ wRec.2.2.1 = str "jaccard_answer") ∧
        (8/10 : ℚ) ≤ wRec.2.2.2 ∧ wRec.2.2.2 ≤ 1) :=
  match_record_scores wLoads [wRef] (str "c1") (str "f") (str "question")
    (str "answer") (8/10) wRec (by with_unfolding_all decide)

/-- C3: the Jaccard scorer returns 1 on two empty sets, otherwise the
intersection-over-union ratio with a defensive 0 for an empty union; its
value always lies in [0, 1]; and `jaccard(∅, ∅) = 1`,
`jaccard(∅, ⦃x⦄) = 0`. -/
theorem jaccard_similarity_spec :
    jaccard_similarity ∅ ∅ = 1 ∧
    (∀ A B : Finset Str, ¬(A = ∅ ∧ B = ∅) →
      jaccard_similarity A B =
        if (A ∪ B).card = 0 then 0
        else ((A ∩ B).card : ℚ) / ((A ∪ B).card : ℚ)) ∧
    (∀ A B : Finset Str,
      0 ≤ jaccard_similarity A B ∧ jaccard_similarity A B ≤ 1) ∧
    jaccard_similarity ∅ {str "x"} = 0 := by
  refine ⟨by with_unfolding_all decide, fun A B h => ?_,
    fun A B => ⟨jaccard_nonneg A B, jaccard_le_one A B⟩,
    by with_unfolding_all decide⟩
  unfold jaccard_similarity
  rw [if_neg h]

/-- Witness for C3's conditional clause at concrete sets. -/
theorem jaccard_similarity_spec_witness :
    jaccard_similarity {str "x"} ∅ =
      if (({str "x"} : Finset Str) ∪ ∅).card = 0 then 0
      else ((({str "x"} : Finset Str) ∩ ∅).card : ℚ) /
        ((({str "x"} : Finset Str) ∪ ∅).card : ℚ) :=
  jaccard_similarity_spec.2.1 {str "x"} ∅ (by with_unfolding_all decide)

/-- C7: the Jaccard scorer is symmetric. -/
theorem jaccard_similarity_symmetric (A B : Finset Str) :
    jaccard_similarity A B = jaccard_similarity B A :=
  jaccard_comm A B

/-- C4 counterexample: the line `arr` decodes successfully to a
non-record JSON value (such as the array `[1, 2]`), so it "cannot be
parsed as a record"; yet `except json.JSONDecodeError` does not catch the
`AttributeError` that `input_entry.get` then raises, so `check_entry`
aborts with the exception instead of a diagnostic, and the whole run —
here with a well-formed candidate before it and after it — aborts with no
diagnostic, no report, and the subsequent well-formed candidate `c2`
unprocessed.  This falsifies, at a concrete input, each of the claim's
"zero Match Records [with] a local diagnostic", "never aborts the run",
and "subsequent well-formed candidate entries are still processed". -/
theorem nonrecord_line_aborts :
    check_entry_exc wDecode [wRef] (str "arr", str "f") (str "question")
      (str "answer") (8/10) = Except.error (str "AttributeError") ∧
    run_all_exc wDecode [wRef]
      [(str "c1", str "f"), (str "arr", str "f"), (str "c2", str "f")]
      (str "question") (str "answer") (8/10) =
      Except.error (str "AttributeError") := by
  with_unfolding_all decide

/-- C4 (amended): a candidate line that raises `json.JSONDecodeError`
yields zero match records and exactly one diagnostic naming its source
file and the offending line, and the run continues past it: with
well-formed tasks before and after it, the run still succeeds, the other
candidates' records are exactly those of their own runs, and the bad
line contributes only its diagnostic.  (A line that is valid JSON but not
a record instead raises an uncaught `AttributeError` that aborts the run,
see the counterexample.) -/
theorem malformed_json_isolated (jsonDecode : Str → Option JsonVal)
    (reference_data : List Entry) (q_key a_key : Str) (threshold : ℚ)
    (line file : Str) (pre post : List (Str × Str))
    (rpre rpost : List MatchRec × List Str)
    (h : jsonDecode (pyStrip line) = none)
    (hpre : run_all_exc jsonDecode reference_data pre q_key a_key threshold =
      Except.ok rpre)
    (hpost : run_all_exc jsonDecode reference_data post q_key a_key threshold =
      Except.ok rpost) :
    check_entry_exc jsonDecode reference_data (line, file) q_key a_key threshold =
      Except.ok ([], [str "Invalid JSON in " ++ file ++ str ": " ++ line]) ∧
    run_all_exc jsonDecode reference_data (pre ++ (line, file) :: post) q_key a_key
        threshold =
      Except.ok (rpre.1 ++ rpost.1,
        rpre.2 ++ (str "Invalid JSON in " ++ file ++ str ": " ++ line) ::
          rpost.2) := by
  have hc : check_entry_exc jsonDecode reference_data (line, file) q_key a_key
      threshold =
      Except.ok ([], [str "Invalid JSON in " ++ file ++ str ": " ++ line]) := by
    unfold check_entry_exc
    rw [h]
  refine ⟨hc, ?_⟩
  rw [run_all_exc_append jsonDecode reference_data q_key a_key threshold pre
    ((line, file) :: post), hpre, run_all_exc_cons, hc, hpost]
  simp

/-- Witness for C4 (amended): a malformed-JSON line between two
well-formed candidates; the run succeeds, keeps both neighbours' results
and inserts the one diagnostic. -/
theorem malformed_json_isolated_witness :
    check_entry_exc wDecode [wRef] (str "bad", str "f") (str "question")
      (str "answer") (8/10) =
      Except.ok ([], [str "Invalid JSON in " ++ str "f" ++ str ": " ++ str "bad"]) ∧
    run_all_exc wDecode [wRef]
      ([(str "c1", str "f")] ++ (str "bad", str "f") :: [(str "c2", str "f")])
      (str "question") (str "answer") (8/10) =
      Except.ok ([wRec],
        [str "Invalid JSON in " ++ str "f" ++ str ": " ++ str "bad"]) :=
  malformed_json_isolated wDecode [wRef] (str "question") (str "answer") (8/10)
    (str "bad") (str "f") [(str "c1", str "f")] [(str "c2", str "f")]
    ([wRec], []) ([], [])
    (by with_unfolding_all decide) (by with_unfolding_all decide)
    (by with_unfolding_all decide)

/-- C5: the aggregated contamination report is, as a multiset and hence as
a set of record tuples, independent of the order in which per-task results
arrive: any two arrival orders that are permutations of one another (the
only degree of freedom the pool size influences) give permuted — in
particular equal-as-sets — concatenated results, and each equals the
sequential concatenation of `check_entry` over every candidate line. -/
theorem pool_size_equivalence (jsonLoads : Str → Option Entry)
    (reference_data : List Entry) (q_key a_key : Str) (threshold : ℚ)
    (tasks arrival : List (Str × Str)) (h : arrival.Perm tasks) :
    (run_all jsonLoads reference_data arrival q_key a_key threshold).1.Perm
      (run_all jsonLoads reference_data tasks q_key a_key threshold).1 ∧
    (run_all jsonLoads reference_data arrival q_key a_key threshold).1.toFinset =
      (run_all jsonLoads reference_data tasks q_key a_key threshold).1.toFinset := by
  have hp : (run_all jsonLoads reference_data arrival q_key a_key threshold).1.Perm
      (run_all jsonLoads reference_data tasks q_key a_key threshold).1 :=
    h.flatMap_right
      fun t => (check_entry jsonLoads reference_data t q_key a_key threshold).1
  refine ⟨hp, Finset.ext fun rec => ?_⟩
  rw [List.mem_toFinset, List.mem_toFinset]
  exact hp.mem_iff

/-- Witness for C5 at two concrete arrival orders of the same two tasks. -/
theorem pool_size_equivalence_witness :
    (run_all wLoads [wRef] [(str "c2", str "f"), (str "c1", str "f")]
        (str "question") (str "answer") (8/10)).1.Perm
      (run_all wLoads [wRef] [(str "c1", str "f"), (str "c2", str "f")]
        (str "question") (str "answer") (8/10)).1 ∧
    (run_all wLoads [wRef] [(str "c2", str "f"), (str "c1", str "f")]
        (str "question") (str "answer") (8/10)).1.toFinset =
      (run_all wLoads [wRef] [(str "c1", str "f"), (str "c2", str "f")]
        (str "question") (str "answer") (8/10)).1.toFinset :=
  pool_size_equivalence wLoads [wRef] (str "question") (str "answer") (8/10)
    [(str "c1", str "f"), (str "c2", str "f")]
    [(str "c2", str "f"), (str "c1", str "f")]
    (by with_unfolding_all decide)

/-- C6: `tokenize` is a total function that lower-cases, deletes every
character that is neither a word character nor whitespace, splits on runs
of whitespace and returns the set of pieces; the empty string yields the
empty set, and every token is a nonempty string of word characters, each
the lower-casing of a character of the input. -/
theorem tokenize_spec :
    tokenize (str "") = ∅ ∧
    (∀ text : Str, tokenize text =
      (pySplit ((text.map Char.toLower).filter
        fun c => isWordChar c || c.isWhitespace)).toFinset) ∧
    (∀ (text tok : Str), tok ∈ tokenize text →
      tok ≠ [] ∧ ∀ c ∈ tok,
        isWordChar c = true ∧ c.isWhitespace = false ∧
          ∃ d ∈ text, c = Char.toLower d) := by
  refine ⟨rfl, fun text => rfl, fun text tok htok => ?_⟩
  unfold tokenize pySplit at htok
  rw [List.mem_toFinset] at htok
  obtain ⟨hne, hmem⟩ :=
    splitAux_sound _ [] (by intro c hc; cases hc) tok htok
  refine ⟨hne, fun c hc => ?_⟩
  obtain ⟨hw, hor⟩ := hmem c hc
  rcases hor with hcontra | hin
  · cases hcontra
  · rw [List.mem_filter] at hin
    obtain ⟨hmap, hcls⟩ := hin
    rw [List.mem_map] at hmap
    obtain ⟨d, hd, hdc⟩ := hmap
    have hword : isWordChar c = true := by
      rcases Bool.or_eq_true_iff.mp hcls with hx | hx
      · exact hx
      · rw [hx] at hw
        cases hw
    exact ⟨hword, hw, d, hd, hdc.symm⟩

/-- Witness for C6 at the token `ab` of a concrete mixed-case input. -/
theorem tokenize_spec_witness :
    str "ab" ≠ [] ∧ ∀ c ∈ str "ab",
      isWordChar c = true ∧ c.isWhitespace = false ∧
        ∃ d ∈ str "Ab, c!", c = Char.toLower d :=
  tokenize_spec.2.2 (str "Ab, c!") (str "ab") (by with_unfolding_all decide)

/-- Generalized accumulator form of the reference-loading loop. -/
lemma loadReference_go (jsonLoads : Str → Option Entry) (q_key a_key : Str) :
    ∀ (lines : List Str) (acc : List Entry × List Str),
      lines.foldl
        (fun acc line =>
          match jsonLoads (pyStrip line) with
          | none =>
            (acc.1, acc.2 ++ [str "Invalid JSON in reference JSONL: " ++ line])
          | some entry =>
            if entry.hasKey q_key ∧ entry.hasKey a_key then
              (acc.1 ++ [entry], acc.2)
            else
              acc)
        acc =
      (acc.1 ++ lines.filterMap (fun line =>
          (jsonLoads (pyStrip line)).bind fun entry =>
            if entry.hasKey q_key ∧ entry.hasKey a_key then some entry else none),
       acc.2 ++ (lines.filter fun line => (jsonLoads (pyStrip line)).isNone).map
          fun line => str "Invalid JSON in reference JSONL: " ++ line) := by
  intro lines
  induction lines with
  | nil => intro acc; simp
  | cons line lines ih =>
    intro acc
    rw [List.foldl_cons]
    cases hj : jsonLoads (pyStrip line) with
    | none =>
      dsimp only
      rw [ih]
      simp [List.filterMap_cons, List.filter_cons, hj]
    | some entry =>
      dsimp only
      rw [ih]
      by_cases hk : entry.hasKey q_key = true ∧ entry.hasKey a_key = true
      · simp [List.filterMap_cons, List.filter_cons, hj, hk]
      · simp [List.filterMap_cons, List.filter_cons, hj, hk]



/-- C8 counterexample: loading a jsonl reference file whose one line
parses to a record missing the configured answer key excludes the record
(first component empty) but emits no diagnostic at all (second component
empty), contradicting the claim that such records are "skipped with a
diagnostic" — the source prints one only in the catalog-based branch. -/
theorem loadReference_missing_key_silent :
    loadReference cLoads [str "L1"] (str "question") (str "answer") = ([], []) := by
  with_unfolding_all decide

/-- C8 (amended): loading from a line-delimited JSON file skips every
line that fails to parse, with one `Invalid JSON` diagnostic per such
line, and silently skips every parsed record missing either configured
key; exactly the records possessing both configured keys enter the
reference collection, in line order. -/
theorem loadReference_spec (jsonLoads : Str → Option Entry) (lines : List Str)
    (q_key a_key : Str) :
    (loadReference jsonLoads lines q_key a_key).1 =
      lines.filterMap (fun line =>
        (jsonLoads (pyStrip line)).bind fun entry =>
          if entry.hasKey q_key ∧ entry.hasKey a_key then some entry else none) ∧
    (loadReference jsonLoads lines q_key a_key).2 =
      (lines.filter fun line => (jsonLoads (pyStrip line)).isNone).map
        fun line => str "Invalid JSON in reference JSONL: " ++ line := by
  unfold loadReference
  rw [loadReference_go jsonLoads q_key a_key lines ([], [])]
  exact ⟨by simp, by simp⟩

/-- C9: whenever a reference entry's configured answer field and the
candidate's answer both trim to the empty string (the candidate's answer
defaults to the empty string when the key is absent), the per-reference
rule fires the exact-match case with score 1 for that pair, whatever the
two question fields are, and the corresponding record is in
`check_entry`'s output; symmetrically for empty trimmed questions. -/
theorem empty_field_exact_match (jsonLoads : Str → Option Entry)
    (reference_data : List Entry) (line file q_key a_key : Str) (threshold : ℚ)
    (input_entry ref_entry : Entry)
    (hp : jsonLoads (pyStrip line) = some input_entry)
    (hr : ref_entry ∈ reference_data) :
    (pyStrip (ref_entry.getStr a_key) = [] →
      pyStrip (input_entry.getStr (str "answer")) = [] →
      checkRefRule input_entry q_key a_key threshold ref_entry =
        some (ref_entry, input_entry, str "exact_match", 1) ∧
      (ref_entry, input_entry, str "exact_match", 1) ∈
        (check_entry jsonLoads reference_data (line, file) q_key a_key threshold).1) ∧
    (pyStrip (ref_entry.getStr q_key) = [] →
      pyStrip (input_entry.getStr (str "question")) = [] →
      checkRefRule input_entry q_key a_key threshold ref_entry =
        some (ref_entry, input_entry, str "exact_match", 1) ∧
      (ref_entry, input_entry, str "exact_match", 1) ∈
        (check_entry jsonLoads reference_data (line, file) q_key a_key threshold).1) := by
  constructor
  · intro h1 h2
    have hrule : checkRefRule input_entry q_key a_key threshold ref_entry =
        some (ref_entry, input_entry, str "exact_match", 1) := by
      unfold checkRefRule
      dsimp only
      rw [if_pos (Or.inr (h2.trans h1.symm))]
    refine ⟨hrule, ?_⟩
    rw [check_entry_parsed jsonLoads reference_data line file q_key a_key threshold
      input_entry hp]
    exact List.mem_filterMap.mpr ⟨ref_entry, hr, hrule⟩
  · intro h1 h2
    have hrule : checkRefRule input_entry q_key a_key threshold ref_entry =
        some (ref_entry, input_entry, str "exact_match", 1) := by
      unfold checkRefRule
      dsimp only
      rw [if_pos (Or.inl (h2.trans h1.symm))]
    refine ⟨hrule, ?_⟩
    rw [check_entry_parsed jsonLoads reference_data line file q_key a_key threshold
      input_entry hp]
    exact List.mem_filterMap.mpr ⟨ref_entry, hr, hrule⟩



/-- Witness for C9: blank reference answer against a candidate lacking
the answer key, with entirely different questions. -/
theorem empty_field_exact_match_witness :
    checkRefRule wCandNoAnswer (str "question") (str "answer") (8/10) wRefBlank =
      some (wRefBlank, wCandNoAnswer, str "exact_match", 1) ∧
    (wRefBlank, wCandNoAnswer, str "exact_match", 1) ∈
      (check_entry wLoadsBlank [wRefBlank] (str "c9", str "f") (str "question")
        (str "answer") (8/10)).1 :=
  (empty_field_exact_match wLoadsBlank [wRefBlank] (str "c9") (str "f")
    (str "question") (str "answer") (8/10) wCandNoAnswer wRefBlank
    (by with_unfolding_all decide) (by with_unfolding_all decide)).1
    (by with_unfolding_all decide) (by with_unfolding_all decide)

/-- C10: `check_entry` reads the candidate only at the literal keys
`question` and `answer` (the configured keys select fields of reference
entries only): two runs whose candidates agree on those two fields — and
may differ anywhere else — produce the same list of
(reference entry, kind, score) triples. -/
theorem candidate_key_noninterference (jsonLoads1 jsonLoads2 : Str → Option Entry)
    (reference_data : List Entry) (line1 file1 line2 file2 q_key a_key : Str)
    (threshold : ℚ) (e1 e2 : Entry)
    (h1 : jsonLoads1 (pyStrip line1) = some e1)
    (h2 : jsonLoads2 (pyStrip line2) = some e2)
    (hq : e1.getStr (str "question") = e2.getStr (str "question"))
    (ha : e1.getStr (str "answer") = e2.getStr (str "answer")) :
    ((check_entry jsonLoads1 reference_data (line1, file1) q_key a_key
        threshold).1).map (fun rec => (rec.1, rec.2.2)) =
      ((check_entry jsonLoads2 reference_data (line2, file2) q_key a_key
        threshold).1).map (fun rec => (rec.1, rec.2.2)) := by
  rw [check_entry_parsed jsonLoads1 reference_data line1 file1 q_key a_key threshold
    e1 h1, check_entry_parsed jsonLoads2 reference_data line2 file2 q_key a_key
    threshold e2 h2]
  dsimp only
  rw [List.map_filterMap, List.map_filterMap]
  apply List.filterMap_congr
  intro r _
  unfold checkRefRule
  dsimp only
  rw [hq, ha]
  split_ifs <;> rfl



/-- Witness for C10: adding unrelated fields to the candidate leaves the
(reference entry, kind, score) triples unchanged. -/
theorem candidate_key_noninterference_witness :
    ((check_entry wLoadsExtra [wRef] (str "c10", str "f") (str "question")
        (str "answer") (8/10)).1).map (fun rec => (rec.1, rec.2.2)) =
      ((check_entry wLoads [wRef] (str "c1", str "f") (str "question")
        (str "answer") (8/10)).1).map (fun rec => (rec.1, rec.2.2)) :=
  candidate_key_noninterference wLoadsExtra wLoads [wRef] (str "c10") (str "f")
    (str "c1") (str "f") (str "question") (str "answer") (8/10) wCandExtra wCand
    (by with_unfolding_all decide) (by with_unfolding_all decide)
    (by with_unfolding_all decide) (by with_unfolding_all decide)

end Contamination
